import Mathlib

/-
Verification of the Amazon listing optimizer backend.

The definitions below are shallow embeddings of the JavaScript source:
  - geminiOptimizer.js  (GeminiOptimizer class: rate limiting, batch
    optimization, calculateOptimizationScore)
  - amazonScraper.js    (AmazonScraper class: extractBulletPoints, isValidASIN)
  - historyRoutes.js    (feedback endpoint, keyword recovery parsing)
  - optimizationRoutes.js (optimize endpoint: freshness check, storage sequence)
  - productRoutes.js    (product endpoint: 24 hour cache check)

JavaScript strings are modelled as Lean String values, JavaScript numbers
appearing in comparisons as rationals, SQL NULL and absent fields as Option,
and timestamps as integer milliseconds.
-/

namespace AmazonOptimizer

/-! ## JavaScript string primitives used by the source -/

/-- The double quote character. -/
def dq : Char := Char.ofNat 34

/-- The single quote character. -/
def sq : Char := Char.ofNat 39

/-- Whitespace recognised by the JavaScript trim operation (ASCII part plus
no-break space and BOM, which covers every input in this development). -/
def jsWhitespaceChar (c : Char) : Bool :=
  c = ' ' || c = Char.ofNat 9 || c = Char.ofNat 10 || c = Char.ofNat 13 ||
  c = Char.ofNat 11 || c = Char.ofNat 12 || c = Char.ofNat 160 || c = Char.ofNat 65279

/-- Model of the JavaScript expression s.trim. -/
def jsTrim (s : String) : String :=
  String.mk (((s.toList.dropWhile jsWhitespaceChar).reverse.dropWhile jsWhitespaceChar).reverse)

/-- Splitting a character list at every comma; mirrors the JavaScript
expression s.split with a comma separator, which yields one piece even for
the empty string. -/
def splitCommaAux : List Char → List Char → List String
  | [], acc => [String.mk acc.reverse]
  | c :: cs, acc =>
      if c = ',' then String.mk acc.reverse :: splitCommaAux cs []
      else splitCommaAux cs (c :: acc)

/-- Model of the JavaScript expression s.split on a comma separator. -/
def jsSplitComma (s : String) : List String := splitCommaAux s.toList []

/-- Model of the JavaScript replace of every single or double quote by the
empty string (the regex with a quote character class and the g flag). -/
def jsRemoveQuotes (s : String) : String :=
  String.mk (s.toList.filter (fun c => !(c = dq || c = sq)))

/-- Model of the JavaScript expression s.slice applied at 1 and -1: drop the
first and the last character. -/
def jsSliceInner (s : String) : String :=
  String.mk ((s.toList.drop 1).dropLast)

/-- Whether the pattern list is a prefix of the first list. -/
def startsWithList : List Char → List Char → Bool
  | _, [] => true
  | [], _ :: _ => false
  | c :: cs, d :: ds => c = d && startsWithList cs ds

/-- Whether the pattern occurs as a contiguous sublist. -/
def containsSubList (sub : List Char) : List Char → Bool
  | [] => startsWithList [] sub
  | c :: cs => startsWithList (c :: cs) sub || containsSubList sub cs

/-- Model of the JavaScript expression s.includes sub. -/
def jsIncludes (s sub : String) : Bool := containsSubList sub.toList s.toList

/-- Model of the JavaScript expression s.startsWith for a one character
pattern, as used with an opening bracket. -/
def jsStartsWith (s : String) (c : Char) : Bool :=
  match s.toList with
  | [] => false
  | d :: _ => d = c

/-- Model of the JavaScript expression s.endsWith for a one character
pattern, as used with a closing bracket. -/
def jsEndsWith (s : String) (c : Char) : Bool :=
  match s.toList.reverse with
  | [] => false
  | d :: _ => d = c

/-! ## JSON values and the JSON.parse model

JSON.parse accepts any JSON value, not only arrays of strings; the numeric
lexeme is kept verbatim since no caller in the source inspects numeric
magnitudes of parsed keyword payloads. -/

/-- A parsed JSON value as JavaScript sees it. -/
inductive JsValue where
  | nullV : JsValue
  | boolV : Bool → JsValue
  | numV : String → JsValue
  | strV : String → JsValue
  | arrV : List JsValue → JsValue
  | objV : List (String × JsValue) → JsValue

/-- Whether a JSON value is an array all of whose elements are strings. -/
def isStringArray : JsValue → Bool
  | JsValue.arrV elems =>
      elems.all (fun v => match v with | JsValue.strV _ => true | _ => false)
  | _ => false

/-- JSON whitespace characters. -/
def jsonWs (c : Char) : Bool :=
  c = ' ' || c = Char.ofNat 9 || c = Char.ofNat 10 || c = Char.ofNat 13

/-- Drop leading JSON whitespace. -/
def skipWs (cs : List Char) : List Char := cs.dropWhile jsonWs

/-- Decimal digit test. -/
def isDigitCh (c : Char) : Bool := Char.ofNat 48 ≤ c && c ≤ Char.ofNat 57

/-- Hexadecimal digit test. -/
def isHexCh (c : Char) : Bool :=
  isDigitCh c || (c = 'a' || c = 'b' || c = 'c' || c = 'd' || c = 'e' || c = 'f') ||
  (c = 'A' || c = 'B' || c = 'C' || c = 'D' || c = 'E' || c = 'F')

/-- Value of a hexadecimal digit. -/
def hexVal (c : Char) : Nat :=
  if isDigitCh c then c.toNat - 48
  else if c = 'a' || c = 'b' || c = 'c' || c = 'd' || c = 'e' || c = 'f' then c.toNat - 87
  else if c = 'A' || c = 'B' || c = 'C' || c = 'D' || c = 'E' || c = 'F' then c.toNat - 55
  else 0

/-- Parse the body of a JSON string after the opening quote, returning the
decoded characters and the remainder after the closing quote. -/
def parseJsonStringBody : Nat → List Char → Option (List Char × List Char)
  | 0, _ => none
  | _, [] => none
  | fuel + 1, c :: cs =>
      if c = dq then some ([], cs)
      else if c = Char.ofNat 92 then
        match cs with
        | [] => none
        | e :: cs2 =>
            if e = dq then
              (parseJsonStringBody fuel cs2).map (fun p => (dq :: p.1, p.2))
            else if e = Char.ofNat 92 then
              (parseJsonStringBody fuel cs2).map (fun p => (Char.ofNat 92 :: p.1, p.2))
            else if e = '/' then
              (parseJsonStringBody fuel cs2).map (fun p => ('/' :: p.1, p.2))
            else if e = 'b' then
              (parseJsonStringBody fuel cs2).map (fun p => (Char.ofNat 8 :: p.1, p.2))
            else if e = 'f' then
              (parseJsonStringBody fuel cs2).map (fun p => (Char.ofNat 12 :: p.1, p.2))
            else if e = 'n' then
              (parseJsonStringBody fuel cs2).map (fun p => (Char.ofNat 10 :: p.1, p.2))
            else if e = 'r' then
              (parseJsonStringBody fuel cs2).map (fun p => (Char.ofNat 13 :: p.1, p.2))
            else if e = 't' then
              (parseJsonStringBody fuel cs2).map (fun p => (Char.ofNat 9 :: p.1, p.2))
            else if e = 'u' then
              match cs2 with
              | h1 :: h2 :: h3 :: h4 :: cs3 =>
                  if isHexCh h1 && isHexCh h2 && isHexCh h3 && isHexCh h4 then
                    (parseJsonStringBody fuel cs3).map (fun p =>
                      (Char.ofNat (((hexVal h1 * 16 + hexVal h2) * 16 + hexVal h3) * 16 + hexVal h4) :: p.1, p.2))
                  else none
              | _ => none
            else none
      else if c.toNat < 32 then none
      else (parseJsonStringBody fuel cs).map (fun p => (c :: p.1, p.2))

/-- Longest digit prefix and the remainder. -/
def takeDigits : List Char → (List Char × List Char)
  | [] => ([], [])
  | c :: cs =>
      if isDigitCh c then
        let p := takeDigits cs
        (c :: p.1, p.2)
      else ([], c :: cs)

/-- Parse a JSON number lexeme per the JSON grammar, returning the lexeme and
the remainder. -/
def parseJsonNumber (cs : List Char) : Option (List Char × List Char) :=
  let signed : Bool × List Char :=
    match cs with
    | c :: rest => if c = '-' then (true, rest) else (false, cs)
    | [] => (false, cs)
  match signed.2 with
  | [] => none
  | c :: rest =>
      if ¬ isDigitCh c then none
      else
        let intPart : List Char × List Char :=
          if c = '0' then ([c], rest)
          else
            let p := takeDigits rest
            (c :: p.1, p.2)
        let afterInt := intPart.2
        let fracPart : Option (List Char × List Char) :=
          match afterInt with
          | '.' :: rest2 =>
              let p := takeDigits rest2
              if p.1 = [] then none else some ('.' :: p.1, p.2)
          | _ => some ([], afterInt)
        match fracPart with
        | none => none
        | some fp =>
            let afterFrac := fp.2
            let expPart : Option (List Char × List Char) :=
              match afterFrac with
              | e :: rest3 =>
                  if e = 'e' || e = 'E' then
                    let signedExp : List Char × List Char :=
                      match rest3 with
                      | s :: rest4 => if s = '+' || s = '-' then ([e, s], rest4) else ([e], rest3)
                      | [] => ([e], rest3)
                    let p := takeDigits signedExp.2
                    if p.1 = [] then none else some (signedExp.1 ++ p.1, p.2)
                  else some ([], afterFrac)
              | [] => some ([], afterFrac)
            match expPart with
            | none => none
            | some ep =>
                let sign : List Char := if signed.1 then ['-'] else []
                some (sign ++ intPart.1 ++ fp.1 ++ ep.1, ep.2)

mutual

/-- Parse one JSON value from the front of the input. -/
def parseJsonValue : Nat → List Char → Option (JsValue × List Char)
  | 0, _ => none
  | fuel + 1, cs =>
      match skipWs cs with
      | [] => none
      | c :: rest =>
          if c = dq then
            (parseJsonStringBody (fuel + 1) rest).map (fun p => (JsValue.strV (String.mk p.1), p.2))
          else if c = '[' then
            match skipWs rest with
            | ']' :: rest2 => some (JsValue.arrV [], rest2)
            | _ => (parseJsonArrayItems fuel rest).map (fun p => (JsValue.arrV p.1, p.2))
          else if c = Char.ofNat 123 then
            match skipWs rest with
            | c2 :: rest2 =>
                if c2 = Char.ofNat 125 then some (JsValue.objV [], rest2)
                else (parseJsonObjectItems fuel rest).map (fun p => (JsValue.objV p.1, p.2))
            | [] => none
          else if c = 'n' then
            match rest with
            | 'u' :: 'l' :: 'l' :: rest2 => some (JsValue.nullV, rest2)
            | _ => none
          else if c = 't' then
            match rest with
            | 'r' :: 'u' :: 'e' :: rest2 => some (JsValue.boolV true, rest2)
            | _ => none
          else if c = 'f' then
            match rest with
            | 'a' :: 'l' :: 's' :: 'e' :: rest2 => some (JsValue.boolV false, rest2)
            | _ => none
          else if c = '-' || isDigitCh c then
            (parseJsonNumber (c :: rest)).map (fun p => (JsValue.numV (String.mk p.1), p.2))
          else none

/-- Parse the comma separated items of a non-empty JSON array, consuming the
closing bracket. -/
def parseJsonArrayItems : Nat → List Char → Option (List JsValue × List Char)
  | 0, _ => none
  | fuel + 1, cs =>
      match parseJsonValue fuel cs with
      | none => none
      | some (v, rest) =>
          match skipWs rest with
          | ',' :: rest2 =>
              (parseJsonArrayItems fuel rest2).map (fun p => (v :: p.1, p.2))
          | ']' :: rest2 => some ([v], rest2)
          | _ => none

/-- Parse the comma separated members of a non-empty JSON object, consuming
the closing brace. -/
def parseJsonObjectItems : Nat → List Char → Option (List (String × JsValue) × List Char)
  | 0, _ => none
  | fuel + 1, cs =>
      match skipWs cs with
      | c :: rest =>
          if c = dq then
            match parseJsonStringBody fuel rest with
            | none => none
            | some (key, rest2) =>
                match skipWs rest2 with
                | ':' :: rest3 =>
                    match parseJsonValue fuel rest3 with
                    | none => none
                    | some (v, rest4) =>
                        match skipWs rest4 with
                        | ',' :: rest5 =>
                            (parseJsonObjectItems fuel rest5).map (fun p =>
                              ((String.mk key, v) :: p.1, p.2))
                        | c2 :: rest5 =>
                            if c2 = Char.ofNat 125 then some ([(String.mk key, v)], rest5)
                            else none
                        | [] => none
                | _ => none
          else none
      | [] => none

end

/-- Model of JSON.parse as a total function: some value on success, none
when JSON.parse would throw. -/
def jsonParse (s : String) : Option JsValue :=
  let cs := s.toList
  match parseJsonValue (4 * cs.length + 8) cs with
  | some (v, rest) => if skipWs rest = [] then some v else none
  | none => none

/-! ## Malformed keyword recovery parser

Embedding of the suggested keyword fallback parsing in the optimize
endpoint of optimizationRoutes.js (the recent-optimization branch of
POST /api/optimize/:asin). The stored column value is a string or SQL NULL;
none models NULL. A falsy value (NULL or the empty string) is replaced by
the two character empty array text before the first decode attempt, exactly
as in the source. -/

/-- The first decode attempt string: the stored value when truthy, else the
literal empty array text. -/
def keywordsStringFirst (raw : Option String) : String :=
  match raw with
  | some s => if s = "" then "[]" else s
  | none => "[]"

/-- The fallback coercion string: the stored value when truthy, else empty. -/
def keywordsStringFallback (raw : Option String) : String :=
  match raw with
  | some s => if s = "" then "" else s
  | none => ""

/-- The bracket branch of the fallback: strip the outer brackets, split on
commas, trim each piece, remove quote characters, and drop empty pieces. -/
def bracketFallbackPieces (s : String) : List String :=
  ((jsSplitComma (jsSliceInner s)).map (fun k => jsRemoveQuotes (jsTrim k))).filter
    (fun k => k ≠ "")

/-- The comma branch of the fallback: split on commas, trim each piece, and
drop empty pieces. -/
def commaFallbackPieces (s : String) : List String :=
  ((jsSplitComma s).map jsTrim).filter (fun k => k ≠ "")

/-- Embedding of the suggested keyword parsing in the cached branch of
POST /api/optimize/:asin: the first JSON.parse attempt is returned verbatim
on success; on failure the fallback inspects the coerced text, retrying
JSON.parse once inside the bracket branch before splitting manually. -/
def parseKeywords (raw : Option String) : JsValue :=
  match jsonParse (keywordsStringFirst raw) with
  | some v => v
  | none =>
      let s := keywordsStringFallback raw
      if s ≠ "" then
        if jsStartsWith s '[' && jsEndsWith s ']' then
          match jsonParse s with
          | some v => v
          | none => JsValue.arrV ((bracketFallbackPieces s).map JsValue.strV)
        else if jsIncludes s "," then
          JsValue.arrV ((commaFallbackPieces s).map JsValue.strV)
        else if jsTrim s ≠ "" then
          JsValue.arrV [JsValue.strV (jsTrim s)]
        else
          JsValue.arrV []
      else
        JsValue.arrV []

/-! ## Score calculator

Embedding of GeminiOptimizer.calculateOptimizationScore. Optional fields
model absent or NULL values; JavaScript length of an absent field defaults
to zero through the optional chaining with a zero fallback in the source. -/

/-- Original content fields consulted by the score calculator. -/
structure OriginalContent where
  title : String
  bulletPoints : Option String
  description : Option String

/-- Optimized content fields consulted by the score calculator. -/
structure OptimizedContent where
  title : String
  bulletPoints : Option String
  description : Option String
  suggestedKeywords : Option (List String)

/-- Result of the score calculator. -/
structure ScoreResult where
  score : Nat
  factors : List String
  maxScore : Nat

/-- JavaScript truthiness of an optional string: present and non-empty. -/
def truthyStr : Option String → Bool
  | some s => s ≠ ""
  | none => false

/-- Length of an optional string with the zero fallback of the source. -/
def optLen : Option String → Nat
  | some s => s.length
  | none => 0

/-- Condition of the title rule in the source: optimized title strictly
longer and at most 200 characters. -/
def titleCond (original : OriginalContent) (optimized : OptimizedContent) : Bool :=
  decide (optimized.title.length > original.title.length) &&
  decide (optimized.title.length ≤ 200)

/-- Condition of the bullet rule in the source: optimized bullets truthy and
strictly longer than the original bullets (absent treated as zero length). -/
def bulletCond (original : OriginalContent) (optimized : OptimizedContent) : Bool :=
  truthyStr optimized.bulletPoints &&
  decide (optLen optimized.bulletPoints > optLen original.bulletPoints)

/-- Condition of the description rule in the source. -/
def descriptionCond (original : OriginalContent) (optimized : OptimizedContent) : Bool :=
  truthyStr optimized.description &&
  decide (optLen optimized.description > optLen original.description)

/-- Condition of the keyword rule in the source: a keyword array is present
(any array is truthy in JavaScript) with at least three entries. -/
def keywordCond (optimized : OptimizedContent) : Bool :=
  optimized.suggestedKeywords.isSome &&
  decide ((optimized.suggestedKeywords.getD []).length ≥ 3)

/-- The factor label of the title rule. -/
def titleLabel : String := "Enhanced title length"

/-- The factor label of the bullet rule. -/
def bulletLabel : String := "Improved bullet points"

/-- The factor label of the description rule. -/
def descriptionLabel : String := "Enhanced description"

/-- The factor label of the keyword rule. -/
def keywordLabel : String := "Added keyword strategy"

/-- Embedding of GeminiOptimizer.calculateOptimizationScore: additive points
per triggered rule, factors pushed in evaluation order, final score capped
at 100. -/
def calculateOptimizationScore (original : OriginalContent)
    (optimized : OptimizedContent) : ScoreResult :=
  let c1 := titleCond original optimized
  let c2 := bulletCond original optimized
  let c3 := descriptionCond original optimized
  let c4 := keywordCond optimized
  let total := (if c1 then 20 else 0) + (if c2 then 25 else 0) +
    (if c3 then 25 else 0) + (if c4 then 30 else 0)
  { score := min total 100
    factors :=
      (if c1 then [titleLabel] else []) ++ (if c2 then [bulletLabel] else []) ++
      (if c3 then [descriptionLabel] else []) ++ (if c4 then [keywordLabel] else [])
    maxScore := 100 }

/-- Point value of a factor label, for relating the score to the factor
list. -/
def labelPoints (label : String) : Nat :=
  if label = titleLabel then 20
  else if label = bulletLabel then 25
  else if label = descriptionLabel then 25
  else if label = keywordLabel then 30
  else 0

/-! ## Identifier validator

Embedding of AmazonScraper.isValidASIN. The input may be any JavaScript
value; only the string case can validate, so non-string inputs are modelled
by one constructor. -/

/-- An input to the validator: a string or any non-string value. -/
inductive AsinInput where
  | strInput : String → AsinInput
  | nonString : AsinInput

/-- Character class of the validator regex: uppercase letters and digits. -/
def asinChar (c : Char) : Bool :=
  (Char.ofNat 65 ≤ c && c ≤ Char.ofNat 90) || (Char.ofNat 48 ≤ c && c ≤ Char.ofNat 57)

/-- Embedding of AmazonScraper.isValidASIN: a string of exactly ten
characters, every character an uppercase letter or digit. -/
def isValidASIN : AsinInput → Bool
  | AsinInput.strInput s =>
      decide (s.length = 10) && s.toList ≠ [] && s.toList.all asinChar
  | AsinInput.nonString => false

/-! ## Bullet point extraction

Embedding of AmazonScraper.extractBulletPoints. A document is modelled by
the item texts its two selector rules return, in document order. -/

/-- The list item texts visible to the two selector rules of
extractBulletPoints. -/
structure ScrapedDoc where
  featureBulletTexts : List String
  altListItemTexts : List String

/-- The per-item filter of extractBulletPoints, applied to the trimmed text:
truthy, free of the disclaimer fragment, and longer than ten characters. -/
def usableBullet (text : String) : Bool :=
  text ≠ "" && !(jsIncludes text "Make sure") && decide (text.length > 10)

/-- Collect the usable trimmed texts of one selector rule, in order. -/
def collectBullets (texts : List String) : List String :=
  (texts.map jsTrim).filter usableBullet

/-- The separator of the bullet join in the source: newline, bullet, space. -/
def bulletSep : String := String.mk [Char.ofNat 10, Char.ofNat 8226, ' ']

/-- Embedding of AmazonScraper.extractBulletPoints: primary rule first, the
secondary rule only when the primary yields nothing, absent when both yield
nothing. -/
def extractBulletPoints (doc : ScrapedDoc) : Option String :=
  let primary := collectBullets doc.featureBulletTexts
  let bulletPoints :=
    if primary.length = 0 then collectBullets doc.altListItemTexts else primary
  if bulletPoints.length > 0 then some (String.intercalate bulletSep bulletPoints)
  else none

/-! ## Freshness gates

Embeddings of the cache decisions of GET /api/products/:asin (24 hour
window on the product update time) and POST /api/optimize/:asin (1 hour
window on the optimization creation time). Timestamps are integer
milliseconds since the epoch. -/

/-- Provenance marker attached to a response. -/
inductive Provenance where
  | cached : Provenance
  | fresh : Provenance
deriving DecidableEq

/-- Milliseconds in 24 hours. -/
def ms24h : ℤ := 24 * 60 * 60 * 1000

/-- Milliseconds in 1 hour. -/
def ms1h : ℤ := 60 * 60 * 1000

/-- The 24 hour comparison of the product route: the stored update time is
strictly after the instant 24 hours before now. -/
def productCacheHit (now lastUpdated : ℤ) : Bool :=
  decide (lastUpdated > now - ms24h)

/-- The 1 hour comparison of the optimize route SQL filter: the stored
creation time is strictly after the instant one hour before now. -/
def recentOptimizationHit (now createdAt : ℤ) : Bool :=
  decide (createdAt > now - ms1h)

/-- Decision of GET /api/products/:asin given the stored update time (none
when no row exists): the provenance of the response and whether a site
fetch is performed. -/
def productRouteDecision (now : ℤ) (storedUpdatedAt : Option ℤ) :
    Provenance × Bool :=
  match storedUpdatedAt with
  | some lastUpdated =>
      if productCacheHit now lastUpdated then (Provenance.cached, false)
      else (Provenance.fresh, true)
  | none => (Provenance.fresh, true)

/-- Decision of POST /api/optimize/:asin given the creation time of the most
recent stored optimization (none when no row passes the SQL window): the
provenance of the response and whether the four generative calls run. -/
def optimizeRouteDecision (now : ℤ) (recentCreatedAt : Option ℤ) :
    Provenance × Bool :=
  match recentCreatedAt with
  | some createdAt =>
      if recentOptimizationHit now createdAt then (Provenance.cached, false)
      else (Provenance.fresh, true)
  | none => (Provenance.fresh, true)

/-! ## Feedback endpoint

Embedding of POST /api/history/:optimizationId/feedback. The request rating
is any JSON value; only numbers pass the typeof test, so the rating is
modelled as an optional rational (none when absent or not a number). The
feedback object of the request body is modelled by presence only, since the
validator consults only its truthiness. -/

/-- One row of the optimization history table. -/
structure HistoryRow where
  asin : String
  optimizationId : Nat
  actionType : String

/-- The stored state consulted and written by the feedback endpoint. -/
structure FeedbackStore where
  optimizations : List (Nat × String)
  history : List HistoryRow

/-- The feedback request body fields consulted by the endpoint. -/
structure FeedbackRequest where
  feedbackPresent : Bool
  rating : Option ℚ

/-- Response kinds of the feedback endpoint. -/
inductive FeedbackResponse where
  | invalidFeedback : FeedbackResponse
  | notFound : FeedbackResponse
  | ok : FeedbackResponse
deriving DecidableEq

/-- The validation test of the endpoint: reject when the feedback object is
missing, the rating is not a number, or the rating is below 1 or above 5. -/
def feedbackRejected (req : FeedbackRequest) : Bool :=
  !req.feedbackPresent ||
  (match req.rating with
   | none => true
   | some r => decide (r < 1) || decide (r > 5))

/-- Lookup of the optimization row by id, as the SELECT by id does. -/
def lookupOptimization (store : FeedbackStore) (optId : Nat) : Option String :=
  (store.optimizations.find? (fun p => p.1 = optId)).map Prod.snd

/-- Embedding of POST /api/history/:optimizationId/feedback: validate, look
the optimization up, and append exactly one feedback history row on
success. -/
def submitFeedback (store : FeedbackStore) (optId : Nat)
    (req : FeedbackRequest) : FeedbackResponse × FeedbackStore :=
  if feedbackRejected req then (FeedbackResponse.invalidFeedback, store)
  else
    match lookupOptimization store optId with
    | none => (FeedbackResponse.notFound, store)
    | some asin =>
        (FeedbackResponse.ok,
         { store with
             history := store.history ++ [⟨asin, optId, "feedback"⟩] })

/-! ## Optimize storage sequence

Embedding of the storage steps of POST /api/optimize/:asin after the four
generative calls succeed: insert the optimization row, append the created
history row, then upsert one keyword tracking row per suggested keyword in
order. The keyword upserts have no surrounding try block of their own, so a
throwing upsert propagates to the route level catch; the oracle argument
says which keyword upserts fail. -/

/-- One row of the optimizations table, reduced to the fields the claims
consult. -/
structure OptimizationRow where
  id : Nat
  asin : String
  suggestedKeywords : List String

/-- The stored state consulted and written by the optimize storage
sequence. -/
structure OptimizeStore where
  optimizations : List OptimizationRow
  history : List HistoryRow
  keywordTracking : List (String × String)

/-- Response kinds of the optimize endpoint storage sequence. -/
inductive OptimizeResponse where
  | success : OptimizeResponse
  | serverError : OptimizeResponse
deriving DecidableEq

/-- One keyword tracking upsert: refresh on conflict, insert otherwise. -/
def upsertKeyword (rows : List (String × String)) (asin keyword : String) :
    List (String × String) :=
  if (asin, keyword) ∈ rows then rows else rows ++ [(asin, keyword)]

/-- Run the keyword upsert loop until the first failing upsert; the oracle
marks the keywords whose INSERT throws. Returns the rows after the loop and
whether every upsert succeeded. -/
def runKeywordLoop (failsOn : String → Bool) (asin : String) :
    List String → List (String × String) → List (String × String) × Bool
  | [], rows => (rows, true)
  | k :: ks, rows =>
      if failsOn k then (rows, false)
      else runKeywordLoop failsOn asin ks (upsertKeyword rows asin k)

/-- Embedding of the storage sequence of POST /api/optimize/:asin: the
optimization insert and the created history insert always run first; a
keyword upsert failure aborts the loop and reaches the route catch, which
answers with a server error, while the rows already written stay in the
store. -/
def storeOptimizationResult (store : OptimizeStore) (newId : Nat)
    (asin : String) (keywords : List String) (failsOn : String → Bool) :
    OptimizeResponse × OptimizeStore :=
  let afterInsert : OptimizeStore :=
    { store with
        optimizations := store.optimizations ++ [⟨newId, asin, keywords⟩]
        history := store.history ++ [⟨asin, newId, "created"⟩] }
  let loopResult := runKeywordLoop failsOn asin keywords afterInsert.keywordTracking
  let finalStore : OptimizeStore := { afterInsert with keywordTracking := loopResult.1 }
  if loopResult.2 then (OptimizeResponse.success, finalStore)
  else (OptimizeResponse.serverError, finalStore)

/-! ## Batch optimization

Embedding of GeminiOptimizer.optimizeMultipleProducts. Each input record is
paired with the outcome its optimizeProduct call would produce, so the
upstream service is an oracle; the loop itself is sequential, pushes every
success and every failure to its own list, and sleeps a fixed delay between
consecutive records. -/

/-- Outcome of one optimizeProduct call: a result value or an error
message. -/
inductive ItemOutcome where
  | okResult : String → ItemOutcome
  | errMessage : String → ItemOutcome
deriving DecidableEq

/-- One batch input: the record identifier and the outcome its call
produces. -/
structure BatchItem where
  asin : String
  outcome : ItemOutcome
deriving DecidableEq

/-- Events of one batch run, in order: processing one record, then waiting
the fixed delay before the next. -/
inductive BatchEvent where
  | processed : String → BatchEvent
  | waited : Nat → BatchEvent
deriving DecidableEq

/-- Summary block of a batch result. -/
structure BatchSummary where
  total : Nat
  successful : Nat
  failed : Nat
deriving DecidableEq

/-- Result of a batch run: the success list, the failure list, and the
summary, as assembled at the end of optimizeMultipleProducts. -/
structure BatchResult where
  successful : List (String × String)
  failed : List (String × String)
  summary : BatchSummary
deriving DecidableEq

/-- The fixed delay between records in optimizeMultipleProducts. -/
def delayBetweenBatches : Nat := 5000

/-- The sequential batch loop: one record at a time, successes and failures
pushed to separate lists. The delay statement of the source sits inside the
try block after the success push, so the loop waits after a successful
record that is not the last one, and skips the delay when the record
failed, since the catch block runs instead. -/
def batchLoop : List BatchItem →
    List (String × String) × List (String × String) × List BatchEvent
  | [] => ([], [], [])
  | item :: rest =>
      let tail := batchLoop rest
      let delayEvents : List BatchEvent :=
        if rest = [] then [] else [BatchEvent.waited delayBetweenBatches]
      match item.outcome with
      | ItemOutcome.okResult r =>
          ((item.asin, r) :: tail.1, tail.2.1,
           BatchEvent.processed item.asin :: delayEvents ++ tail.2.2)
      | ItemOutcome.errMessage e =>
          (tail.1, (item.asin, e) :: tail.2.1,
           BatchEvent.processed item.asin :: tail.2.2)

/-- Embedding of GeminiOptimizer.optimizeMultipleProducts: the batch result
assembled from the sequential loop, with the summary counts taken from the
input length and the two collected lists. -/
def optimizeMultipleProducts (items : List BatchItem) : BatchResult :=
  let run := batchLoop items
  { successful := run.1
    failed := run.2.1
    summary :=
      { total := items.length
        successful := run.1.length
        failed := run.2.1.length } }

/-- The event trace of one batch run, for the sequencing part of the
claim. -/
def batchTrace (items : List BatchItem) : List BatchEvent :=
  (batchLoop items).2.2

/-! ## Rate limit gate under the concurrent four call dispatch

Embedding of GeminiOptimizer.rateLimitCheck together with the Promise.all
dispatch of the four per-field calls in optimizeProduct, under the
JavaScript event loop: each async call runs synchronously up to its first
await, so every call executes the rateLimitCheck comparison before any
sleeping call has updated the shared lastRequestTime; a sleeping call
updates the shared timestamp and dispatches only after its timer fires,
without re-checking. Time is logical milliseconds. -/

/-- The minimum inter-call interval of the engine. -/
def minRequestInterval : Nat := 1000

/-- Shared engine state plus the event loop bookkeeping: the current time,
the shared last request time, the pending timers in creation order, and the
dispatch log as pairs of task id and dispatch time. -/
structure EngineRun where
  time : Nat
  lastRequestTime : Nat
  requestCount : Nat
  timers : List (Nat × Nat)
  dispatches : List (Nat × Nat)

/-- Synchronous start of one per-field call: rateLimitCheck compares now
against the shared timestamp; a call inside the interval schedules a timer
for the remainder and suspends before touching the shared state, a call
outside it updates the shared state and dispatches at once. -/
def startCall (st : EngineRun) (taskId : Nat) : EngineRun :=
  if st.time - st.lastRequestTime < minRequestInterval then
    let waitTime := minRequestInterval - (st.time - st.lastRequestTime)
    { st with timers := st.timers ++ [(st.time + waitTime, taskId)] }
  else
    { st with
        lastRequestTime := st.time
        requestCount := st.requestCount + 1
        dispatches := st.dispatches ++ [(taskId, st.time)] }

/-- Earliest wake time among the pending timers. -/
def earliestWake : List (Nat × Nat) → Nat
  | [] => 0
  | t :: ts => ts.foldl (fun acc p => min acc p.1) t.1

/-- Remove the first timer with the given wake time, keeping creation
order among the rest. -/
def removeTimer (wake : Nat) : List (Nat × Nat) → List (Nat × Nat)
  | [] => []
  | t :: ts => if t.1 = wake then ts else t :: removeTimer wake ts

/-- Find the task id of the first timer with the given wake time. -/
def firstTimerTask (wake : Nat) : List (Nat × Nat) → Nat
  | [] => 0
  | t :: ts => if t.1 = wake then t.2 else firstTimerTask wake ts

/-- Fire one timer: advance the clock to the earliest wake time and resume
that call, which sets the shared timestamp to the current time and
dispatches, without re-checking the interval. -/
def fireNextTimer (st : EngineRun) : EngineRun :=
  match st.timers with
  | [] => st
  | _ :: _ =>
      let wake := earliestWake st.timers
      let taskId := firstTimerTask wake st.timers
      let now := max st.time wake
      { time := now
        lastRequestTime := now
        requestCount := st.requestCount + 1
        timers := removeTimer wake st.timers
        dispatches := st.dispatches ++ [(taskId, now)] }

/-- Drain the timer queue. -/
def fireAllTimers : Nat → EngineRun → EngineRun
  | 0, st => st
  | fuel + 1, st =>
      match st.timers with
      | [] => st
      | _ :: _ => fireAllTimers fuel (fireNextTimer st)

/-- The Promise.all run of optimizeProduct: the four per-field calls start
synchronously in source order at the same instant, then the event loop
fires the timers they scheduled. -/
def promiseAllRun (startTime lastBefore : Nat) : EngineRun :=
  let st0 : EngineRun :=
    { time := startTime
      lastRequestTime := lastBefore
      requestCount := 0
      timers := []
      dispatches := [] }
  let started := startCall (startCall (startCall (startCall st0 1) 2) 3) 4
  fireAllTimers 4 started

/-- Minimum spacing property over a dispatch log: every two distinct
dispatches are at least the interval apart. -/
def wellSpaced (dispatches : List (Nat × Nat)) : Prop :=
  List.Pairwise
    (fun p q => p.2 + minRequestInterval ≤ q.2 ∨ q.2 + minRequestInterval ≤ p.2)
    dispatches

/-! ## Claim side mirror definitions

These definitions restate conditions the way the specification words them,
to be compared against the embedded source definitions above. -/

/-- Specification wording of the title rule: generated title longer than the
original and at most 200 characters. -/
def claimTitleTriggered (original : OriginalContent) (optimized : OptimizedContent) : Bool :=
  decide (original.title.length < optimized.title.length) &&
  decide (optimized.title.length ≤ 200)

/-- Specification wording of the bullet rule: generated bullet text longer
than the original bullet text, a missing side treated as zero length. -/
def claimBulletTriggered (original : OriginalContent) (optimized : OptimizedContent) : Bool :=
  decide (optLen original.bulletPoints < optLen optimized.bulletPoints)

/-- Specification wording of the description rule. -/
def claimDescriptionTriggered (original : OriginalContent) (optimized : OptimizedContent) : Bool :=
  decide (optLen original.description < optLen optimized.description)

/-- Specification wording of the keyword rule: the generated keyword
sequence has at least three entries, an absent sequence counting as empty. -/
def claimKeywordTriggered (optimized : OptimizedContent) : Bool :=
  decide (3 ≤ (optimized.suggestedKeywords.getD []).length)

/-- The additive point sum exactly as the specification words it. -/
def claimSum (original : OriginalContent) (optimized : OptimizedContent) : Nat :=
  (if claimTitleTriggered original optimized then 20 else 0) +
  (if claimBulletTriggered original optimized then 25 else 0) +
  (if claimDescriptionTriggered original optimized then 25 else 0) +
  (if claimKeywordTriggered optimized then 30 else 0)

/-- The ordered factor list exactly as the specification words it. -/
def claimFactors (original : OriginalContent) (optimized : OptimizedContent) : List String :=
  (if claimTitleTriggered original optimized then [titleLabel] else []) ++
  (if claimBulletTriggered original optimized then [bulletLabel] else []) ++
  (if claimDescriptionTriggered original optimized then [descriptionLabel] else []) ++
  (if claimKeywordTriggered optimized then [keywordLabel] else [])

/-- The batch event trace as amended: every record is processed in input
order, and the fixed delay follows a successfully processed record that is
not the last one, while a failed record is followed immediately by the
next. -/
def expectedBatchTrace : List BatchItem → List BatchEvent
  | [] => []
  | item :: rest =>
      BatchEvent.processed item.asin ::
        ((match item.outcome with
          | ItemOutcome.okResult _ =>
              if rest = [] then [] else [BatchEvent.waited delayBetweenBatches]
          | ItemOutcome.errMessage _ => []) ++ expectedBatchTrace rest)

/-- Projection of a batch trace to the identifiers processed, in order. -/
def processedOrder (events : List BatchEvent) : List String :=
  events.filterMap (fun e =>
    match e with
    | BatchEvent.processed a => some a
    | BatchEvent.waited _ => none)

/-- The success projection of a batch input list. -/
def successProjection (items : List BatchItem) : List (String × String) :=
  items.filterMap (fun item =>
    match item.outcome with
    | ItemOutcome.okResult r => some (item.asin, r)
    | ItemOutcome.errMessage _ => none)

/-- The failure projection of a batch input list. -/
def failureProjection (items : List BatchItem) : List (String × String) :=
  items.filterMap (fun item =>
    match item.outcome with
    | ItemOutcome.okResult _ => none
    | ItemOutcome.errMessage e => some (item.asin, e))

/-! ## Theorems -/

/-- Helper: an array built by mapping the string constructor is an array of
strings. -/
theorem isStringArray_of_map (l : List String) :
    isStringArray (JsValue.arrV (l.map JsValue.strV)) = true := by
  simp [isStringArray, List.all_map, Function.comp]

/-- C9: the identifier validator returns true exactly on strings of ten
characters drawn from uppercase letters and digits, and false on every
other input, including every non-string input. -/
theorem isValidASIN_spec (inp : AsinInput) :
    isValidASIN inp = true ↔
      ∃ s, inp = AsinInput.strInput s ∧ s.length = 10 ∧
        s.toList.all asinChar = true := by
  cases inp with
  | strInput s =>
      simp only [isValidASIN, Bool.and_eq_true, decide_eq_true_eq]
      constructor
      · rintro ⟨⟨hlen, _⟩, hall⟩
        exact ⟨s, rfl, hlen, hall⟩
      · rintro ⟨t, ht, hlen, hall⟩
        obtain rfl : s = t := by injection ht
        refine ⟨⟨hlen, ?_⟩, hall⟩
        have hl : s.toList.length = 10 := hlen
        intro hnil
        rw [hnil] at hl
        exact absurd hl (by decide)
  | nonString =>
      simp only [isValidASIN]
      constructor
      · intro h
        exact absurd h (by decide)
      · rintro ⟨t, ht, _, _⟩
        exact absurd ht (by intro h; injection h)

/-- C3: both freshness windows are strict comparisons of the record age
against the window width, a hit answers from storage with the cached
provenance and skips the expensive operation, a miss recomputes and answers
with the fresh provenance; a product updated 23 hours ago is inside the
window and one updated 25 hours ago is not, an optimization created 59
minutes ago is inside the window and one created 61 minutes ago is not. -/
theorem freshnessGate_spec :
    (∀ now lastUpdated : ℤ,
       productRouteDecision now (some lastUpdated) =
         if now - lastUpdated < ms24h then (Provenance.cached, false)
         else (Provenance.fresh, true)) ∧
    (∀ now createdAt : ℤ,
       optimizeRouteDecision now (some createdAt) =
         if now - createdAt < ms1h then (Provenance.cached, false)
         else (Provenance.fresh, true)) ∧
    productRouteDecision 0 (some (-(23 * 3600000))) = (Provenance.cached, false) ∧
    productRouteDecision 0 (some (-(25 * 3600000))) = (Provenance.fresh, true) ∧
    optimizeRouteDecision 0 (some (-(59 * 60000))) = (Provenance.cached, false) ∧
    optimizeRouteDecision 0 (some (-(61 * 60000))) = (Provenance.fresh, true) := by
  refine ⟨?_, ?_, by decide, by decide, by decide, by decide⟩
  · intro now lastUpdated
    by_cases h : now - lastUpdated < ms24h
    · have hc : productCacheHit now lastUpdated = true := by
        simp only [productCacheHit, decide_eq_true_eq]
        omega
      simp [productRouteDecision, hc, h]
    · have hc : productCacheHit now lastUpdated = false := by
        simp only [productCacheHit, decide_eq_false_iff_not, not_lt]
        omega
      simp [productRouteDecision, hc, h]
  · intro now createdAt
    by_cases h : now - createdAt < ms1h
    · have hc : recentOptimizationHit now createdAt = true := by
        simp only [recentOptimizationHit, decide_eq_true_eq]
        omega
      simp [optimizeRouteDecision, hc, h]
    · have hc : recentOptimizationHit now createdAt = false := by
        simp only [recentOptimizationHit, decide_eq_false_iff_not, not_lt]
        omega
      simp [optimizeRouteDecision, hc, h]

/-- C8: evaluation of the rate limit gate at the failing scenario: the four
per-field calls of one optimize request start concurrently in the same
millisecond through the concurrent dispatch, the first call dispatches at
once, and the other three compute the same remainder from the same stale
shared timestamp, wake together one interval later, and dispatch at the
same instant, so the dispatch log violates the minimum spacing the claim
requires. -/
theorem rateLimit_race_dispatches :
    (promiseAllRun 1000000 0).dispatches =
      [(1, 1000000), (2, 1001000), (3, 1001000), (4, 1001000)] ∧
    ¬ wellSpaced (promiseAllRun 1000000 0).dispatches := by
  refine ⟨by decide, ?_⟩
  intro h
  rw [show (promiseAllRun 1000000 0).dispatches =
      [(1, 1000000), (2, 1001000), (3, 1001000), (4, 1001000)] from by decide] at h
  have h23 := (List.pairwise_cons.mp (List.pairwise_cons.mp h).2).1 (3, 1001000) (by simp)
  norm_num [minRequestInterval] at h23

/-- C1 counterexample: the stored payload 42 is valid JSON, so the first
decode attempt succeeds and its number value is returned verbatim; the
result is not a sequence of strings, although the claim promises one for
every stored payload (its five step order would give a singleton string
sequence here). -/
theorem parseKeywords_counterexample :
    parseKeywords (some "42") = JsValue.numV "42" ∧
    isStringArray (parseKeywords (some "42")) = false :=
  ⟨rfl, rfl⟩

/-- C1 amended: the recovery parser is total; a successful JSON decode of
the coerced payload is returned verbatim whatever its shape, and whenever
that decode fails the fallback always produces a sequence of strings; the
six named inputs produce exactly the named sequences. -/
theorem parseKeywords_amended :
    parseKeywords (some "[\"a\",\"b\"]") = JsValue.arrV [JsValue.strV "a", JsValue.strV "b"] ∧
    parseKeywords (some "a, b") = JsValue.arrV [JsValue.strV "a", JsValue.strV "b"] ∧
    parseKeywords (some "[a, b]") = JsValue.arrV [JsValue.strV "a", JsValue.strV "b"] ∧
    parseKeywords (some "a") = JsValue.arrV [JsValue.strV "a"] ∧
    parseKeywords (some "") = JsValue.arrV [] ∧
    parseKeywords none = JsValue.arrV [] ∧
    (∀ raw v, jsonParse (keywordsStringFirst raw) = some v → parseKeywords raw = v) ∧
    (∀ raw, jsonParse (keywordsStringFirst raw) = none →
       isStringArray (parseKeywords raw) = true) := by
  refine ⟨rfl, rfl, rfl, rfl, rfl, rfl, ?_, ?_⟩
  · intro raw v h
    simp [parseKeywords, h]
  · intro raw h
    match raw with
    | none => exact Option.noConfusion h
    | some s =>
        by_cases hs : s = ""
        · subst hs
          exact Option.noConfusion h
        · have hfirst : keywordsStringFirst (some s) = s := by
            simp [keywordsStringFirst, hs]
          have hfb : keywordsStringFallback (some s) = s := by
            simp [keywordsStringFallback, hs]
          rw [hfirst] at h
          simp only [parseKeywords, hfirst, hfb, h]
          rw [if_pos hs]
          by_cases hb : (jsStartsWith s '[' && jsEndsWith s ']') = true
          · rw [if_pos hb]
            exact isStringArray_of_map _
          · rw [if_neg hb]
            by_cases hc : jsIncludes s "," = true
            · rw [if_pos hc]
              exact isStringArray_of_map _
            · rw [if_neg hc]
              by_cases ht : jsTrim s ≠ ""
              · rw [if_pos ht]
                rfl
              · rw [if_neg ht]
                rfl

/-- C1 witness: a concrete payload on which the first decode fails and the
fallback yields a sequence of strings. -/
theorem parseKeywords_amended_witness :
    isStringArray (parseKeywords (some "x, y")) = true :=
  parseKeywords_amended.2.2.2.2.2.2.2 (some "x, y") rfl

/-- Helper: the bullet condition of the source equals the specification
condition, since the truthiness guard is implied by the strict length
comparison. -/
theorem bulletCond_eq (o : OriginalContent) (g : OptimizedContent) :
    bulletCond o g = claimBulletTriggered o g := by
  cases hb : g.bulletPoints with
  | none => simp [bulletCond, claimBulletTriggered, truthyStr, optLen, hb]
  | some s =>
      have hsome : optLen (some s) = s.length := rfl
      by_cases hlt : optLen o.bulletPoints < s.length
      · have hne : s ≠ "" := by
          intro he
          rw [he] at hlt
          exact Nat.not_lt_zero _ hlt
        simp [bulletCond, claimBulletTriggered, truthyStr, hb, hsome, hlt, hne,
          gt_iff_lt]
      · simp [bulletCond, claimBulletTriggered, truthyStr, hb, hsome, hlt,
          gt_iff_lt]

/-- Helper: the description condition of the source equals the
specification condition. -/
theorem descriptionCond_eq (o : OriginalContent) (g : OptimizedContent) :
    descriptionCond o g = claimDescriptionTriggered o g := by
  cases hd : g.description with
  | none => simp [descriptionCond, claimDescriptionTriggered, truthyStr, optLen, hd]
  | some s =>
      have hsome : optLen (some s) = s.length := rfl
      by_cases hlt : optLen o.description < s.length
      · have hne : s ≠ "" := by
          intro he
          rw [he] at hlt
          exact Nat.not_lt_zero _ hlt
        simp [descriptionCond, claimDescriptionTriggered, truthyStr, hd, hsome,
          hlt, hne, gt_iff_lt]
      · simp [descriptionCond, claimDescriptionTriggered, truthyStr, hd, hsome,
          hlt, gt_iff_lt]

/-- Helper: the keyword condition of the source equals the specification
condition, since an absent array defaults to zero entries. -/
theorem keywordCond_eq (g : OptimizedContent) :
    keywordCond g = claimKeywordTriggered g := by
  cases hk : g.suggestedKeywords with
  | none => simp [keywordCond, claimKeywordTriggered, hk]
  | some l => simp [keywordCond, claimKeywordTriggered, hk, ge_iff_le]

/-- C2: the score is the capped additive sum of exactly the four rule
points as the specification words them, the result is bounded by 100, the
factor list is exactly the ordered list of triggered labels, and a
generated title longer than 200 characters never earns the title factor. -/
theorem calculateOptimizationScore_spec (o : OriginalContent) (g : OptimizedContent) :
    (calculateOptimizationScore o g).score = min (claimSum o g) 100 ∧
    (calculateOptimizationScore o g).score ≤ 100 ∧
    (calculateOptimizationScore o g).factors = claimFactors o g ∧
    (200 < g.title.length → titleLabel ∉ (calculateOptimizationScore o g).factors) := by
  have h1 : titleCond o g = claimTitleTriggered o g := rfl
  have h2 := bulletCond_eq o g
  have h3 := descriptionCond_eq o g
  have h4 := keywordCond_eq g
  refine ⟨?_, ?_, ?_, ?_⟩
  · simp [calculateOptimizationScore, claimSum, h1, h2, h3, h4]
  · simp only [calculateOptimizationScore]
    exact Nat.min_le_right _ _
  · simp [calculateOptimizationScore, claimFactors, h1, h2, h3, h4]
  · intro hlen
    have hc : titleCond o g = false := by
      simp only [titleCond, Bool.and_eq_false_iff, decide_eq_false_iff_not, not_le]
      right
      exact hlen
    cases hb : bulletCond o g <;> cases hd : descriptionCond o g <;>
      cases hk : keywordCond g <;>
      simp only [calculateOptimizationScore, hc, hb, hd, hk] <;> decide

set_option maxRecDepth 4000 in
/-- C2 witness: a generated title of 201 characters does not earn the title
factor. -/
theorem calculateOptimizationScore_spec_witness :
    titleLabel ∉ (calculateOptimizationScore ⟨"X", none, none⟩
        ⟨String.mk (List.replicate 201 'A'), none, none, none⟩).factors :=
  (calculateOptimizationScore_spec _ _).2.2.2 (by decide)

/-- C10: the score equals the sum of the point values of the labels in the
returned factor list, that sum never exceeds 100 so the cap never binds,
and the score is 100 exactly when all four labels appear. -/
theorem score_equals_factor_points (o : OriginalContent) (g : OptimizedContent) :
    (calculateOptimizationScore o g).score =
      ((calculateOptimizationScore o g).factors.map labelPoints).sum ∧
    ((calculateOptimizationScore o g).factors.map labelPoints).sum ≤ 100 ∧
    ((calculateOptimizationScore o g).score = 100 ↔
      titleLabel ∈ (calculateOptimizationScore o g).factors ∧
      bulletLabel ∈ (calculateOptimizationScore o g).factors ∧
      descriptionLabel ∈ (calculateOptimizationScore o g).factors ∧
      keywordLabel ∈ (calculateOptimizationScore o g).factors) := by
  cases h1 : titleCond o g <;> cases h2 : bulletCond o g <;>
    cases h3 : descriptionCond o g <;> cases h4 : keywordCond g <;>
    simp only [calculateOptimizationScore, h1, h2, h3, h4] <;> decide

/-- C4 counterexample: with two suggested keywords whose second tracking
upsert throws, the optimization row and the created history row stay in the
store, but the route answers with the server error, not with the successful
degraded response the claim requires. -/
theorem optimize_keywordFailure_counterexample :
    (storeOptimizationResult ⟨[], [], []⟩ 1 "B00TEST111" ["alpha", "beta"]
        (fun k => k == "beta")).1 = OptimizeResponse.serverError ∧
    (storeOptimizationResult ⟨[], [], []⟩ 1 "B00TEST111" ["alpha", "beta"]
        (fun k => k == "beta")).2.optimizations = [⟨1, "B00TEST111", ["alpha", "beta"]⟩] ∧
    (storeOptimizationResult ⟨[], [], []⟩ 1 "B00TEST111" ["alpha", "beta"]
        (fun k => k == "beta")).2.history = [⟨"B00TEST111", 1, "created"⟩] :=
  ⟨rfl, rfl, rfl⟩

/-- Helper: the keyword loop succeeds exactly when no keyword upsert
fails. -/
theorem runKeywordLoop_snd (failsOn : String → Bool) (asin : String) :
    ∀ ks rows, (runKeywordLoop failsOn asin ks rows).2 =
      ks.all (fun k => !failsOn k) := by
  intro ks
  induction ks with
  | nil => intro rows; rfl
  | cons k ks ih =>
      intro rows
      by_cases hf : failsOn k = true
      · simp [runKeywordLoop, hf]
      · simp only [Bool.not_eq_true] at hf
        simp [runKeywordLoop, hf, ih]

/-- C4 amended: the optimization row and its created history row are
written before the keyword loop and are never rolled back, whatever keyword
upserts fail; the overall optimize response is successful exactly when
every keyword upsert succeeds, and a keyword failure turns the response
into a server error instead of the degraded success the claim states. -/
theorem optimize_keywordFailure_amended (store : OptimizeStore) (newId : Nat)
    (asin : String) (keywords : List String) (failsOn : String → Bool) :
    (storeOptimizationResult store newId asin keywords failsOn).2.optimizations =
      store.optimizations ++ [⟨newId, asin, keywords⟩] ∧
    (storeOptimizationResult store newId asin keywords failsOn).2.history =
      store.history ++ [⟨asin, newId, "created"⟩] ∧
    ((storeOptimizationResult store newId asin keywords failsOn).1 =
        OptimizeResponse.success ↔
      keywords.all (fun k => !failsOn k) = true) := by
  have hall := runKeywordLoop_snd failsOn asin keywords store.keywordTracking
  refine ⟨?_, ?_, ?_⟩
  · cases hb : (runKeywordLoop failsOn asin keywords store.keywordTracking).2 <;>
      simp [storeOptimizationResult, hb]
  · cases hb : (runKeywordLoop failsOn asin keywords store.keywordTracking).2 <;>
      simp [storeOptimizationResult, hb]
  · rw [← hall]
    cases hb : (runKeywordLoop failsOn asin keywords store.keywordTracking).2 <;>
      simp [storeOptimizationResult, hb]

/-- C5 counterexample: the rating five halves is not an integer, yet the
endpoint accepts it and appends a feedback history row, although the claim
requires rejection of every non-integer rating with unchanged state. -/
theorem submitFeedback_counterexample :
    (mkRat 5 2).den = 2 ∧
    (submitFeedback ⟨[(1, "B00TEST111")], []⟩ 1 ⟨true, some (mkRat 5 2)⟩).1 =
      FeedbackResponse.ok ∧
    (submitFeedback ⟨[(1, "B00TEST111")], []⟩ 1 ⟨true, some (mkRat 5 2)⟩).2.history =
      [⟨"B00TEST111", 1, "feedback"⟩] :=
  ⟨rfl, rfl, rfl⟩

/-- C5 amended: the endpoint rejects a request exactly when the feedback
object is missing, the rating is not a number, or the rating lies outside
the closed interval from 1 to 5 — integrality is not enforced; rejection
and an unknown optimization id leave the store unchanged, and an accepted
request appends exactly one feedback history row for the referenced
optimization; the rating 6 is always rejected. -/
theorem submitFeedback_amended (store : FeedbackStore) (optId : Nat)
    (req : FeedbackRequest) :
    (feedbackRejected req = false ↔
       req.feedbackPresent = true ∧ ∃ r, req.rating = some r ∧ 1 ≤ r ∧ r ≤ 5) ∧
    (feedbackRejected req = true →
       submitFeedback store optId req = (FeedbackResponse.invalidFeedback, store)) ∧
    (feedbackRejected req = false → lookupOptimization store optId = none →
       submitFeedback store optId req = (FeedbackResponse.notFound, store)) ∧
    (∀ asin, feedbackRejected req = false →
       lookupOptimization store optId = some asin →
       submitFeedback store optId req =
         (FeedbackResponse.ok,
          { store with history := store.history ++ [⟨asin, optId, "feedback"⟩] })) ∧
    submitFeedback store optId ⟨true, some 6⟩ =
      (FeedbackResponse.invalidFeedback, store) := by
  refine ⟨?_, ?_, ?_, ?_, ?_⟩
  · obtain ⟨fp, rating⟩ := req
    cases rating with
    | none => simp [feedbackRejected]
    | some r =>
        simp only [feedbackRejected, Bool.or_eq_false_iff, Bool.not_eq_true',
          decide_eq_false_iff_not, not_lt]
        constructor
        · rintro ⟨hfp, h1, h5⟩
          refine ⟨?_, r, rfl, h1, h5⟩
          simpa using hfp
        · rintro ⟨hfp, r2, hr2, h1, h5⟩
          obtain rfl : r = r2 := by injection hr2
          refine ⟨?_, h1, h5⟩
          simp [hfp]
  · intro h
    simp [submitFeedback, h]
  · intro h1 h2
    simp [submitFeedback, h1, h2]
  · intro asin h1 h2
    simp [submitFeedback, h1, h2]
  · have h : feedbackRejected ⟨true, some 6⟩ = true := by
      simp only [feedbackRejected, Bool.not_true, Bool.false_or, Bool.or_eq_true,
        decide_eq_true_eq]
      right
      norm_num
    simp [submitFeedback, h]

/-- C5 witness: a concrete accepted request appends one feedback row. -/
theorem submitFeedback_amended_witness :
    submitFeedback ⟨[(2, "B00TEST222")], []⟩ 2 ⟨true, some 3⟩ =
      (FeedbackResponse.ok,
       ⟨[(2, "B00TEST222")], [⟨"B00TEST222", 2, "feedback"⟩]⟩) :=
  (submitFeedback_amended ⟨[(2, "B00TEST222")], []⟩ 2 ⟨true, some 3⟩).2.2.2.1
    "B00TEST222" (by norm_num [feedbackRejected]) rfl

/-- C6 counterexample: after a failed record the loop proceeds to the next
record without the fixed inter-record delay, since the delay statement sits
inside the try block; the trace of a failing record followed by a
successful one holds no wait event, although the claim states a fixed
inter-record delay. -/
theorem batch_delay_counterexample :
    batchTrace [⟨"B00TESTAAA", ItemOutcome.errMessage "API error"⟩,
                ⟨"B00TESTBBB", ItemOutcome.okResult "r"⟩] =
      [BatchEvent.processed "B00TESTAAA", BatchEvent.processed "B00TESTBBB"] :=
  rfl

/-- Helper: the batch loop computes the two projections and the expected
trace. -/
theorem batchLoop_spec (items : List BatchItem) :
    (batchLoop items).1 = successProjection items ∧
    (batchLoop items).2.1 = failureProjection items ∧
    (batchLoop items).2.2 = expectedBatchTrace items := by
  induction items with
  | nil => exact ⟨rfl, rfl, rfl⟩
  | cons item rest ih =>
      obtain ⟨ih1, ih2, ih3⟩ := ih
      cases ho : item.outcome <;>
        simp [batchLoop, successProjection, failureProjection, expectedBatchTrace,
          ho, ih1, ih2, ih3]

/-- Helper: the two projections partition the input length. -/
theorem projection_length (items : List BatchItem) :
    (successProjection items).length + (failureProjection items).length =
      items.length := by
  induction items with
  | nil => rfl
  | cons item rest ih =>
      cases ho : item.outcome <;>
        simp [successProjection, failureProjection, ho] at ih ⊢ <;> omega

/-- Helper: every record appears as processed in the expected trace, in
input order. -/
theorem processedOrder_trace (items : List BatchItem) :
    processedOrder (expectedBatchTrace items) = items.map BatchItem.asin := by
  induction items with
  | nil => rfl
  | cons item rest ih =>
      cases ho : item.outcome <;>
        simp [expectedBatchTrace, processedOrder, ho, ih] <;>
        by_cases hr : rest = [] <;> simp [hr, processedOrder] at ih ⊢ <;> exact ih

/-- C6 amended: batch optimization processes every record sequentially in
input order, waiting the fixed delay after each successfully processed
record that is not the last one (and not after a failed record), isolates
failures so that the successes and failures partition the inputs in order,
and reports summary counts with total equal to the input length; a batch of
five with one failing upstream call yields exactly four successes and one
failure. -/
theorem optimizeMultipleProducts_amended (items : List BatchItem) :
    (optimizeMultipleProducts items).successful = successProjection items ∧
    (optimizeMultipleProducts items).failed = failureProjection items ∧
    (optimizeMultipleProducts items).summary.total = items.length ∧
    (optimizeMultipleProducts items).summary.successful =
      (optimizeMultipleProducts items).successful.length ∧
    (optimizeMultipleProducts items).summary.failed =
      (optimizeMultipleProducts items).failed.length ∧
    (optimizeMultipleProducts items).successful.length +
      (optimizeMultipleProducts items).failed.length = items.length ∧
    batchTrace items = expectedBatchTrace items ∧
    processedOrder (batchTrace items) = items.map BatchItem.asin ∧
    optimizeMultipleProducts
      [⟨"B00TESTAA1", ItemOutcome.okResult "r1"⟩,
       ⟨"B00TESTAA2", ItemOutcome.okResult "r2"⟩,
       ⟨"B00TESTAA3", ItemOutcome.errMessage "AI optimization failed"⟩,
       ⟨"B00TESTAA4", ItemOutcome.okResult "r4"⟩,
       ⟨"B00TESTAA5", ItemOutcome.okResult "r5"⟩] =
      ⟨[("B00TESTAA1", "r1"), ("B00TESTAA2", "r2"), ("B00TESTAA4", "r4"),
        ("B00TESTAA5", "r5")],
       [("B00TESTAA3", "AI optimization failed")], ⟨5, 4, 1⟩⟩ := by
  obtain ⟨h1, h2, h3⟩ := batchLoop_spec items
  refine ⟨?_, ?_, rfl, rfl, rfl, ?_, ?_, ?_, by decide⟩
  · simpa [optimizeMultipleProducts] using h1
  · simpa [optimizeMultipleProducts] using h2
  · simp [optimizeMultipleProducts, h1, h2, projection_length]
  · simpa [batchTrace] using h3
  · rw [show batchTrace items = expectedBatchTrace items from by
      simpa [batchTrace] using h3]
    exact processedOrder_trace items

/-- C7: every item surviving the bullet filter is longer than the length
threshold and free of the disclaimer fragment; the primary rule wins when
it yields any usable item, the secondary rule is consulted only when the
primary yields none, the survivors are joined with the bullet separator,
and the field is absent when both rules yield nothing. -/
theorem extractBulletPoints_spec (doc : ScrapedDoc) :
    (∀ texts : List String, ∀ x ∈ collectBullets texts,
       10 < x.length ∧ jsIncludes x "Make sure" = false) ∧
    (collectBullets doc.featureBulletTexts ≠ [] →
       extractBulletPoints doc =
         some (String.intercalate bulletSep (collectBullets doc.featureBulletTexts))) ∧
    (collectBullets doc.featureBulletTexts = [] →
       collectBullets doc.altListItemTexts ≠ [] →
       extractBulletPoints doc =
         some (String.intercalate bulletSep (collectBullets doc.altListItemTexts))) ∧
    (collectBullets doc.featureBulletTexts = [] →
       collectBullets doc.altListItemTexts = [] →
       extractBulletPoints doc = none) := by
  refine ⟨?_, ?_, ?_, ?_⟩
  · intro texts x hx
    simp only [collectBullets, List.mem_filter] at hx
    obtain ⟨-, hu⟩ := hx
    simp only [usableBullet, Bool.and_eq_true, Bool.not_eq_true',
      decide_eq_true_eq] at hu
    exact ⟨hu.2, hu.1.2⟩
  · intro h
    have h0 : ¬ (collectBullets doc.featureBulletTexts).length = 0 := by
      simpa [List.length_eq_zero] using h
    have hpos : (collectBullets doc.featureBulletTexts).length > 0 :=
      Nat.pos_of_ne_zero h0
    simp [extractBulletPoints, h0, hpos]
  · intro h hs
    have hs0 : ¬ (collectBullets doc.altListItemTexts).length = 0 := by
      simpa [List.length_eq_zero] using hs
    have hpos : (collectBullets doc.altListItemTexts).length > 0 :=
      Nat.pos_of_ne_zero hs0
    simp [extractBulletPoints, h, hpos]
  · intro h hs
    simp [extractBulletPoints, h, hs]

/-- C7 witness: one usable primary item is joined and returned. -/
theorem extractBulletPoints_spec_witness :
    extractBulletPoints ⟨["a long usable feature"], []⟩ =
      some (String.intercalate bulletSep (collectBullets ["a long usable feature"])) :=
  (extractBulletPoints_spec ⟨["a long usable feature"], []⟩).2.1 (by decide)

end AmazonOptimizer
